import Mathlib

/-!
# maddy: delivery core

A shallow embedding of `sql.go` (recipient registration and the Received
trace line), `dsn/dsn.go` (delivery status notifications) and
`check_group.go` (grouped checks), with the properties the specification
states about them.

Conventions of the embedding

* A Go `error` value is an `Option GoError`, `none` being `nil`.
* Go functions returning `(value, error)` return a pair.
* Stateful collaborators (storage backend, output writer) are threaded
  through as explicit state.
* Code that lives outside the four embedded files (the helpers
  `splitAddress` and `sanitizeString`, the Go standard library, the
  `textproto`, `errgroup` and `imapsql` packages) is taken as a parameter.
-/

namespace Maddy

/-! ## Errors -/

/-- The Go type `smtp.EnhancedCode`, an array of three ints. -/
structure EnhancedCode where
  c0 : Int
  c1 : Int
  c2 : Int
deriving DecidableEq, Repr

/-- The Go type `smtp.SMTPError`. -/
structure SMTPError where
  Code : Int
  EnhancedCode : EnhancedCode
  Message : String
deriving DecidableEq, Repr

/-- Go `error` values, as far as the code tells them apart: a (non-nil)
`*smtp.SMTPError`, found by type assertion in `dsn.go`; the two sentinel
values `imapsql.ErrUserDoesntExists` and `backend.ErrNoSuchMailbox`, compared
by identity in `AddRcpt`; and every other error, known by its text. -/
inductive GoError where
  | smtp (e : SMTPError)
  | ErrUserDoesntExists
  | ErrNoSuchMailbox
  | other (text : String)
deriving DecidableEq, Repr

/-- The method `Error()` of an error value. For `*smtp.SMTPError` it is the
message; the sentinels carry the text their packages give them. -/
def GoError.Error : GoError → String
  | .smtp e => e.Message
  | .ErrUserDoesntExists => "imapsql: user doesn't exists"
  | .ErrNoSuchMailbox => "No such mailbox"
  | .other text => text

/-! ## Headers -/

/-- The type `textproto.Header`: the fields in the order `Add` was called,
each with its key as stored. -/
structure Header where
  fields : List (String × String)
deriving DecidableEq, Repr

/-- The empty header `textproto.Header{}`. -/
def Header.empty : Header := ⟨[]⟩

/-- The bytes a header field name may hold: letters, digits and the
punctuation of an RFC 7230 token. -/
def validHeaderFieldChar (c : Char) : Bool :=
  c.isAlphanum || "!#$%&\x27*+-.^_\x60|~".data.contains c

/-- The letters of a field name in canonical case: upper case at the start
and after a hyphen, lower case elsewhere. `upper` tells whether the next
letter starts a word. -/
def canonicalChars : Bool → List Char → List Char
  | _, [] => []
  | upper, c :: cs =>
    (if upper && c.isLower then c.toUpper
     else if !upper && c.isUpper then c.toLower
     else c) :: canonicalChars (c == '-') cs

/-- The Go function `textproto.CanonicalMIMEHeaderKey`: a field name made of
valid bytes is put in canonical case, any other text is returned as it is. -/
def CanonicalMIMEHeaderKey (s : String) : String :=
  if s.data.all validHeaderFieldChar then String.mk (canonicalChars true s.data) else s

/-- The method `Header.Add`: the key is stored in canonical case. -/
def Header.Add (h : Header) (k v : String) : Header :=
  ⟨h.fields ++ [(CanonicalMIMEHeaderKey k, v)]⟩

/-- A header field as a line `Key: value`. -/
def fieldLine (f : String × String) : String := f.1 ++ ": " ++ f.2

/-- The lines of a header record, one per field. -/
def Header.lines (h : Header) : List String := h.fields.map fieldLine

/-! ## `sql.go`: the Received line and recipient registration -/

/-- The Go function `strings.TrimRight`: drops every trailing character that
occurs in `cutset`. -/
def TrimRight (s cutset : String) : String :=
  String.mk ((s.data.reverse.dropWhile fun c => cutset.data.contains c).reverse)

/-- The layout constant `time.RFC1123Z` of the Go standard library. -/
def RFC1123Z : String := "Mon, 02 Jan 2006 15:04:05 -0700"

/-- The methods of `time.Time` the code calls, for a type `Time` of time
values: `IsZero`, `Format` with a layout, and `String` (used when a
template prints a time). -/
structure TimeLib (Time : Type) where
  IsZero : Time → Bool
  Format : Time → String → String
  String : Time → String

/-- The type `net.IP`. The code only ever renders it (`ip.String()`, and
`%v`, which calls the same method), so an address is kept as that text. -/
structure IP where
  text : String
deriving DecidableEq, Repr

/-- The method `IP.String`. -/
def IP.String (ip : IP) : String := ip.text

/-- The type `net.TCPAddr`. -/
structure TCPAddr where
  IP : IP
  Port : Nat
  Zone : String
deriving DecidableEq, Repr

/-- A value of the interface `net.Addr`: absent, a (non-nil) `*net.TCPAddr`,
or an address of any other kind (network name and text). -/
inductive Addr where
  | none
  | tcp (a : TCPAddr)
  | other (network : String) (text : String)
deriving DecidableEq, Repr

/-- The fields of `module.MsgMetadata` that `sql.go` reads. -/
structure MsgMetadata where
  ID : String
  SrcProto : String
  SrcHostname : String
  SrcAddr : Addr
  OurHostname : String
  DontTraceSender : Bool
  Quarantine : Bool
  BodyLength : Nat
deriving DecidableEq, Repr

/-- The interface `Resolver`: its method `LookupAddr` maps the text of an
address to names and an error. -/
structure Resolver where
  LookupAddr : String → List String × Option GoError

/-- The function `LookupAddr` of `sql.go`. -/
def LookupAddr (r : Resolver) (ip : IP) : String × Option GoError :=
  match r.LookupAddr ip.String with
  | (names, err) =>
    if err ≠ none ∨ names.length = 0 then
      ("", err)
    else
      (TrimRight (names.headD "") ".", none)

/-- The helpers of the package that `sql.go` calls and that live in other
files, together with `strings.ToLower`. `splitAddress` returns mailbox,
domain and error. -/
structure Helpers where
  splitAddress : String → String × String × Option GoError
  sanitizeString : String → String
  ToLower : String → String

/-- The function `generateReceived`; `now` is the value of `time.Now()`. -/
def generateReceived {Time : Type} (hl : Helpers) (tl : TimeLib Time) (now : Time)
    (r : Resolver) (msgMeta : MsgMetadata) (mailFrom rcptTo : String) : String :=
  let received := ""
  let received :=
    if !msgMeta.DontTraceSender then
      let received := received ++ ("from " ++ msgMeta.SrcHostname)
      match msgMeta.SrcAddr with
      | .tcp tcpAddr =>
        match LookupAddr r tcpAddr.IP with
        | (domain, err) =>
          if err ≠ none then
            received ++ (" ([" ++ tcpAddr.IP.String ++ "])")
          else
            received ++ (" (" ++ domain ++ " [" ++ tcpAddr.IP.String ++ "])")
      | _ => received
    else received
  let received := received ++
    (" by " ++ hl.sanitizeString msgMeta.OurHostname ++
     " (envelope-sender <" ++ hl.sanitizeString mailFrom ++ ">)")
  let received := received ++ (" with " ++ msgMeta.SrcProto ++ " id " ++ msgMeta.ID)
  let received := received ++ (" for " ++ rcptTo ++ "; " ++ tl.Format now RFC1123Z)
  received

/-- The storage-level delivery handle `*imapsql.Delivery`, seen from
`AddRcpt`: `calls` records every recipient registration that reached the
backend, in order, and `respond` is the backend's answer to a registration
given all earlier ones. -/
structure Delivery where
  calls : List (String × Header)
  respond : List (String × Header) → String → Header → Option GoError

/-- The method `Delivery.AddRcpt` of the backend: the call is recorded and
answered. -/
def Delivery.AddRcpt (d : Delivery) (username : String) (userHeader : Header) :
    Option GoError × Delivery :=
  (d.respond d.calls username userHeader,
   { d with calls := d.calls ++ [(username, userHeader)] })

/-- The backend `*imapsql.Backend`, seen from `Start`. -/
structure Backend where
  StartDelivery : Delivery × Option GoError

/-- The type `SQLStorage`. -/
structure SQLStorage where
  back : Backend
  instName : String
  storagePerDomain : Bool
  authPerDomain : Bool
  authDomains : List String
  junkMbox : String
  resolver : Resolver

/-- The type `sqlDelivery`; the key set of the map `addedRcpts` is a list. -/
structure sqlDelivery where
  sqlm : SQLStorage
  msgMeta : MsgMetadata
  d : Delivery
  mailFrom : String
  addedRcpts : List String

/-- The method `sqlDelivery.AddRcpt`: the returned error and the delivery
afterwards. `now` is the value of `time.Now()` during this call. -/
def sqlDelivery.AddRcpt {Time : Type} (hl : Helpers) (tl : TimeLib Time) (now : Time)
    (sd : sqlDelivery) (rcptTo : String) : Option GoError × sqlDelivery :=
  let split : String × Option GoError :=
    if sd.sqlm.storagePerDomain then
      (rcptTo, none)
    else
      match hl.splitAddress rcptTo with
      | (mailbox, _, err) => (mailbox, err)
  match split with
  | (_, some err) =>
    (some (.smtp
      { Code := 501
        EnhancedCode := ⟨5, 1, 3⟩
        Message := "Invalid recipient address: " ++ err.Error }), sd)
  | (accountName, none) =>
    let accountName := hl.ToLower accountName
    if accountName ∈ sd.addedRcpts then
      (none, sd)
    else
      let userHeader := Header.empty
      let userHeader := userHeader.Add "Delivered-To" rcptTo
      let userHeader := userHeader.Add "Received"
        (generateReceived hl tl now sd.sqlm.resolver sd.msgMeta sd.mailFrom rcptTo)
      match sd.d.AddRcpt (hl.ToLower accountName) userHeader with
      | (some err, d) =>
        if err = .ErrUserDoesntExists ∨ err = .ErrNoSuchMailbox then
          (some (.smtp
            { Code := 550
              EnhancedCode := ⟨5, 1, 1⟩
              Message := "User doesn't exist" }), { sd with d := d })
        else
          (some err, { sd with d := d })
      | (none, d) =>
        (none, { sd with d := d, addedRcpts := accountName :: sd.addedRcpts })

/-- The method `SQLStorage.Start`. -/
def SQLStorage.Start (sqlm : SQLStorage) (msgMeta : MsgMetadata) (mailFrom : String) :
    Option sqlDelivery × Option GoError :=
  match sqlm.back.StartDelivery with
  | (_, some err) => (none, some err)
  | (d, none) =>
    (some { sqlm := sqlm, msgMeta := msgMeta, d := d, mailFrom := mailFrom, addedRcpts := [] },
     none)

/-- The key under which `AddRcpt` looks a recipient up in `addedRcpts`: the
account name it derives from the address, lower-cased; `none` when the
address is rejected as malformed. -/
def accountKey (hl : Helpers) (sqlm : SQLStorage) (rcptTo : String) : Option String :=
  if sqlm.storagePerDomain then
    some (hl.ToLower rcptTo)
  else
    match hl.splitAddress rcptTo with
    | (mailbox, _, none) => some (hl.ToLower mailbox)
    | (_, _, some _) => none

/-- The header `AddRcpt` attaches to the registration of `rcptTo`. -/
def userHeaderFor {Time : Type} (hl : Helpers) (tl : TimeLib Time) (now : Time)
    (sd : sqlDelivery) (rcptTo : String) : Header :=
  (Header.empty.Add "Delivered-To" rcptTo).Add "Received"
    (generateReceived hl tl now sd.sqlm.resolver sd.msgMeta sd.mailFrom rcptTo)

/-! ## `dsn/dsn.go`: delivery status notifications -/

/-- The operations of the `textproto` package and of `io.Writer` that
`dsn.go` calls, over a type `W` of writer states: the output sink together
with the multipart writer wrapped around it. Each write returns its error
and the state afterwards. -/
structure Textproto (W : Type) where
  NewMultipartWriter : W → W
  Boundary : W → String
  CreatePart : W → Header → Option GoError × W
  Close : W → Option GoError × W
  WriteHeader : W → Header → Option GoError × W
  Write : W → String → Option GoError × W

/-- How a call ends: it returns `val`, or it panics; `w` is the writer state
at that point. -/
inductive Outcome (α W : Type) where
  | done (val : α) (w : W)
  | panic (w : W)
deriving DecidableEq, Repr

/-- The type `ReportingMTAInfo`. -/
structure ReportingMTAInfo (Time : Type) where
  ReportingMTA : String
  ReceivedFromMTA : String
  XSender : String
  XMessageID : String
  ArrivalDate : Time
  LastAttemptDate : Time

/-- The layout both date fields of `ReportingMTAInfo.WriteTo` and the Date
field of `GenerateDSN` are formatted with. -/
def dateLayout : String := "Mon, 2 Jan 2006 15:04:05 -0700"

/-- The method `ReportingMTAInfo.WriteTo`. -/
def ReportingMTAInfo.WriteTo {Time W : Type} (tl : TimeLib Time) (tp : Textproto W)
    (info : ReportingMTAInfo Time) (w : W) : Option GoError × W :=
  let h := Header.empty
  if info.ReportingMTA = "" then
    (some (.other "dsn: Reporting-MTA field is mandatory"), w)
  else
    let h := h.Add "Reporting-MTA" ("dns; " ++ info.ReportingMTA)
    let h := if info.ReceivedFromMTA ≠ "" then
        h.Add "Received-From-MTA" ("dns; " ++ info.ReceivedFromMTA)
      else h
    let h := if info.XSender ≠ "" then
        h.Add "X-Maddy-Sender" ("rfc822; " ++ info.XSender)
      else h
    let h := if info.XMessageID ≠ "" then
        h.Add "X-Maddy-MsgID" info.XMessageID
      else h
    let h := if !tl.IsZero info.ArrivalDate then
        h.Add "Arrival-Date" (tl.Format info.ArrivalDate dateLayout)
      else h
    let h := if !tl.IsZero info.ArrivalDate then
        h.Add "Last-Attempt-Date" (tl.Format info.ArrivalDate dateLayout)
      else h
    tp.WriteHeader w h

/-- The type `RecipientInfo`. `Action` is a string type; `DiagnosticCode` is
an `error`, `none` being the nil interface value. -/
structure RecipientInfo where
  FinalRecipient : String
  RemoteMTA : String
  Action : String
  Status : EnhancedCode
  DiagnosticCode : Option GoError
deriving DecidableEq, Repr

/-- The three components of an enhanced code, formatted `%d.%d.%d`. -/
def EnhancedCode.dotted (c : EnhancedCode) : String :=
  toString c.c0 ++ "." ++ toString c.c1 ++ "." ++ toString c.c2

/-- The method `RecipientInfo.WriteTo`. Calling `Error()` on a nil
`DiagnosticCode` is a nil dereference: the call panics. -/
def RecipientInfo.WriteTo {W : Type} (tp : Textproto W) (info : RecipientInfo) (w : W) :
    Outcome (Option GoError) W :=
  let h := Header.empty
  if info.FinalRecipient = "" then
    .done (some (.other "dsn: Final-Recipient is required")) w
  else
    let h := h.Add "Final-Recipient" ("rfc822; " ++ info.FinalRecipient)
    if info.Action = "" then
      .done (some (.other "dsn: Action is required")) w
    else
      let h := h.Add "Action" info.Action
      if info.Status.c0 = 0 then
        .done (some (.other "dsn: Status is required")) w
      else
        let h := h.Add "Status" info.Status.dotted
        let diagnostic : Option Header :=
          match info.DiagnosticCode with
          | some (.smtp smtpErr) =>
            some (h.Add "Diagnostic-Code"
              ("smtp; " ++ toString smtpErr.Code ++ " " ++ smtpErr.EnhancedCode.dotted ++
                " " ++ smtpErr.Message))
          | some err => some (h.Add "Diagnostic-Code" ("X-Maddy; " ++ err.Error))
          | none => none
        match diagnostic with
        | none => .panic w
        | some h =>
          let h := if info.RemoteMTA ≠ "" then
              h.Add "Remote-MTA" ("dns; " ++ info.RemoteMTA)
            else h
          match tp.WriteHeader w h with
          | (err, w) => .done err w

/-- The type `Envelope`. -/
structure Envelope where
  MsgID : String
  From : String
  To : String
deriving DecidableEq, Repr

/-- The function `writeHeader`. -/
def writeHeader {W : Type} (tp : Textproto W) (w : W) (header : Header) : Option GoError × W :=
  let partHeader := Header.empty
  let partHeader := partHeader.Add "Content-Description" "Undelivered message header"
  let partHeader := partHeader.Add "Content-Type" "message/rfc822-headers"
  let partHeader := partHeader.Add "Content-Transfer-Encoding" "8bit"
  match tp.CreatePart w partHeader with
  | (some err, w) => (some err, w)
  | (none, headerWriter) => tp.WriteHeader headerWriter header

/-- The loop of `writeMachineReadablePart` over the recipients. -/
def writeRecipientRecords {W : Type} (tp : Textproto W) :
    List RecipientInfo → W → Outcome (Option GoError) W
  | [], w => .done none w
  | rcpt :: rest, w =>
    match rcpt.WriteTo tp w with
    | .panic w => .panic w
    | .done (some err) w => .done (some err) w
    | .done none w => writeRecipientRecords tp rest w

/-- The function `writeMachineReadablePart`. -/
def writeMachineReadablePart {Time W : Type} (tl : TimeLib Time) (tp : Textproto W) (w : W)
    (mtaInfo : ReportingMTAInfo Time) (rcptsInfo : List RecipientInfo) :
    Outcome (Option GoError) W :=
  let machineHeader := Header.empty
  let machineHeader := machineHeader.Add "Content-Type" "message/delivery-status"
  let machineHeader := machineHeader.Add "Content-Description" "Delivery report"
  match tp.CreatePart w machineHeader with
  | (some err, w) => .done (some err) w
  | (none, machineWriter) =>
    match mtaInfo.WriteTo tl tp machineWriter with
    | (some err, w) => .done (some err) w
    | (none, w) => writeRecipientRecords tp rcptsInfo w

/-- The template `failedText`, executed on `mtaInfo`: the pieces of text the
template engine writes, in order. A time is printed by its `String` method. -/
def failedText {Time : Type} (tl : TimeLib Time) (mtaInfo : ReportingMTAInfo Time) :
    List String :=
  ["\nThis is the mail delivery system at ",
   mtaInfo.ReportingMTA,
   ". \n\nUnfortunately, your message could not be delivered to one or more\n" ++
   "recipients. The usual cause of this problem is invalid \n" ++
   "recipient address or maintenance at the recipient side.\n\n" ++
   "Contact the postmaster for further assistance, provide the Message ID (below):\n\n" ++
   "Message ID: ",
   mtaInfo.XMessageID,
   "\nArrival: ",
   tl.String mtaInfo.ArrivalDate,
   "\nLast delivery attempt: ",
   tl.String mtaInfo.LastAttemptDate,
   "\n\n"]

/-- Writes pieces of text one after the other, stopping at the first error:
what executing a template does with its output. -/
def writeAll {W : Type} (tp : Textproto W) : List String → W → Option GoError × W
  | [], w => (none, w)
  | s :: rest, w =>
    match tp.Write w s with
    | (some err, w) => (some err, w)
    | (none, w) => writeAll tp rest w

/-- An error value as the verb `%v` prints it. -/
def formatError : Option GoError → String
  | none => "<nil>"
  | some err => err.Error

/-- The loop of `writeHumanReadablePart` over the recipients. -/
def writeRecipientLines {W : Type} (tp : Textproto W) :
    List RecipientInfo → W → Option GoError × W
  | [], w => (none, w)
  | rcpt :: rest, w =>
    match tp.Write w
      ("Delivery to " ++ rcpt.FinalRecipient ++ " (" ++ rcpt.RemoteMTA ++
        ") failed with error: " ++ formatError rcpt.DiagnosticCode ++ "\n") with
    | (some err, w) => (some err, w)
    | (none, w) => writeRecipientLines tp rest w

/-- The function `writeHumanReadablePart`. -/
def writeHumanReadablePart {Time W : Type} (tl : TimeLib Time) (tp : Textproto W) (w : W)
    (_envelope : Envelope) (mtaInfo : ReportingMTAInfo Time) (rcptsInfo : List RecipientInfo) :
    Option GoError × W :=
  let humanHeader := Header.empty
  let humanHeader := humanHeader.Add "Content-Transfer-Encoding" "8bit"
  let humanHeader := humanHeader.Add "Content-Type" "text/plain; encoding=utf-8"
  let humanHeader := humanHeader.Add "Content-Description" "Notification"
  match tp.CreatePart w humanHeader with
  | (some err, w) => (some err, w)
  | (none, humanWriter) =>
    match writeAll tp (failedText tl mtaInfo) humanWriter with
    | (some err, w) => (some err, w)
    | (none, w) => writeRecipientLines tp rcptsInfo w

/-- The function `GenerateDSN`: the returned header and error, and the writer
afterwards. `now` is the value of `time.Now()`. The deferred
`partWriter.Close()` runs on every way out, its error dropped. -/
def GenerateDSN {Time W : Type} (tl : TimeLib Time) (tp : Textproto W) (now : Time)
    (envelope : Envelope) (mtaInfo : ReportingMTAInfo Time) (rcptsInfo : List RecipientInfo)
    (failedHeader : Header) (outWriter : W) : Outcome (Header × Option GoError) W :=
  let partWriter := tp.NewMultipartWriter outWriter
  let reportHeader := Header.empty
  let reportHeader := reportHeader.Add "Date" (tl.Format now dateLayout)
  let reportHeader := reportHeader.Add "Message-Id" envelope.MsgID
  let reportHeader := reportHeader.Add "Content-Transfer-Encoding" "8bit"
  let reportHeader := reportHeader.Add "Content-Type"
    ("multipart/report; report-type=delivery-status; boundary=" ++ tp.Boundary partWriter)
  let reportHeader := reportHeader.Add "MIME-Version" "1.0"
  let reportHeader := reportHeader.Add "Auto-Submitted" "auto-replied"
  let reportHeader := reportHeader.Add "To" envelope.To
  let reportHeader := reportHeader.Add "From" envelope.From
  let reportHeader := reportHeader.Add "Subject" "Undelivered Mail Returned to Sender"
  match writeHumanReadablePart tl tp partWriter envelope mtaInfo rcptsInfo with
  | (some err, w) => .done (Header.empty, some err) (tp.Close w).2
  | (none, w) =>
    match writeMachineReadablePart tl tp w mtaInfo rcptsInfo with
    | .panic w => .panic (tp.Close w).2
    | .done (some err) w => .done (Header.empty, some err) (tp.Close w).2
    | .done none w =>
      match writeHeader tp w failedHeader with
      | (err, w) => .done (reportHeader, err) (tp.Close w).2

/-! ## `check_group.go`: checks run as a group -/

/-- A `context.Context` as the callee sees it: whether it finds the context
cancelled. -/
structure Context where
  cancelled : Bool
deriving DecidableEq, Repr

/-- The lock `*sync.RWMutex` handed to the body checks. -/
structure RWMutex where
deriving DecidableEq, Repr

/-- The interface `module.CheckState`; the message body is kept as text. -/
structure CheckState where
  CheckConnection : Context → Option GoError
  CheckSender : Context → String → Option GoError
  CheckRcpt : Context → String → Option GoError
  CheckBody : Context → RWMutex → Header → String → Option GoError
  Close : Option GoError

/-- The type `checkGroupState`. -/
structure checkGroupState where
  msgMeta : MsgMetadata
  states : List CheckState

/-- One way the concurrent calls of a stage can unfold: `order` lists the
children (by position) in the order in which their calls return, and
`notices i` tells whether child `i`, returning after the shared context was
cancelled, has seen the cancellation. -/
structure Schedule where
  order : List Nat
  notices : Nat → Bool

/-- An `errgroup.Group` with its context, while the tasks run: `err` is the
error kept so far, `cancelled` whether the shared context is cancelled, and
`returned` what the tasks have returned so far, in order of return. -/
structure Run where
  err : Option GoError
  cancelled : Bool
  returned : List (Option GoError)
deriving DecidableEq, Repr

/-- The error a group keeps is the first one its tasks returned. -/
def Run.firstError (run : Run) : Prop :=
  run.err = (run.returned.filterMap id).head?

/-- A task started with `Group.Go` returns `r`: the first error returned is
kept and cancels the shared context; later ones are dropped. -/
def Run.record (run : Run) (r : Option GoError) : Run :=
  match run.err, r with
  | none, some e => { err := some e, cancelled := true, returned := run.returned ++ [r] }
  | _, _ => { run with returned := run.returned ++ [r] }

/-- The tasks return one after the other, in the given order. -/
def errgroupSteps (tasks : List (Context → Option GoError)) (s : Schedule) :
    List Nat → Run → Run
  | [], run => run
  | i :: rest, run =>
    errgroupSteps tasks s rest
      (match tasks[i]? with
       | none => run
       | some task => run.record (task ⟨run.cancelled && s.notices i⟩))

/-- A group made by `errgroup.WithContext ctx` runs `tasks` under schedule
`s`, up to the point where all have returned. -/
def errgroupRun (ctx : Context) (tasks : List (Context → Option GoError)) (s : Schedule) :
    Run :=
  errgroupSteps tasks s s.order { err := none, cancelled := ctx.cancelled, returned := [] }

/-- The method `Group.Wait`: the error kept once all tasks have returned. -/
def errgroupWait (ctx : Context) (tasks : List (Context → Option GoError)) (s : Schedule) :
    Option GoError :=
  (errgroupRun ctx tasks s).err

/-- The method `checkGroupState.CheckConnection`, under schedule `s`. -/
def checkGroupState.CheckConnection (cgs : checkGroupState) (ctx : Context) (s : Schedule) :
    Option GoError :=
  errgroupWait ctx (cgs.states.map fun state => fun childCtx => state.CheckConnection childCtx) s

/-- The method `checkGroupState.CheckSender`, under schedule `s`. -/
def checkGroupState.CheckSender (cgs : checkGroupState) (ctx : Context) (mailFrom : String)
    (s : Schedule) : Option GoError :=
  errgroupWait ctx
    (cgs.states.map fun state => fun childCtx => state.CheckSender childCtx mailFrom) s

/-- The method `checkGroupState.CheckRcpt`, under schedule `s`. -/
def checkGroupState.CheckRcpt (cgs : checkGroupState) (ctx : Context) (rcptTo : String)
    (s : Schedule) : Option GoError :=
  errgroupWait ctx (cgs.states.map fun state => fun childCtx => state.CheckRcpt childCtx rcptTo) s

/-- The method `checkGroupState.CheckBody`, under schedule `s`. -/
def checkGroupState.CheckBody (cgs : checkGroupState) (ctx : Context) (headerLock : RWMutex)
    (header : Header) (body : String) (s : Schedule) : Option GoError :=
  errgroupWait ctx
    (cgs.states.map fun state => fun childCtx =>
      state.CheckBody childCtx headerLock header body) s

/-- A stage call with its arguments. -/
inductive StageCall where
  | connection
  | sender (mailFrom : String)
  | rcpt (rcptTo : String)
  | body (headerLock : RWMutex) (header : Header) (body : String)

/-- The call of a child state for a stage. -/
def CheckState.call (state : CheckState) (st : StageCall) (ctx : Context) : Option GoError :=
  match st with
  | .connection => state.CheckConnection ctx
  | .sender mailFrom => state.CheckSender ctx mailFrom
  | .rcpt rcptTo => state.CheckRcpt ctx rcptTo
  | .body headerLock header body => state.CheckBody ctx headerLock header body

/-- The call of the group for a stage. -/
def checkGroupState.call (cgs : checkGroupState) (st : StageCall) (ctx : Context)
    (s : Schedule) : Option GoError :=
  match st with
  | .connection => cgs.CheckConnection ctx s
  | .sender mailFrom => cgs.CheckSender ctx mailFrom s
  | .rcpt rcptTo => cgs.CheckRcpt ctx rcptTo s
  | .body headerLock header body => cgs.CheckBody ctx headerLock header body s

/-- What the children's calls of a stage returned, in order of return. -/
def checkGroupState.returned (cgs : checkGroupState) (st : StageCall) (ctx : Context)
    (s : Schedule) : List (Option GoError) :=
  (errgroupRun ctx (cgs.states.map fun state => fun childCtx => state.call st childCtx) s).returned

/-! ## Concrete collaborators, for evaluating the definitions -/

/-- Lower-casing of the ASCII letters of a text, as `strings.ToLower` does
on ASCII input. -/
def asciiToLower (s : String) : String := String.mk (s.data.map Char.toLower)

/-- Splits a list of characters at the first `@`. -/
def splitAtSign : List Char → Option (List Char × List Char)
  | [] => none
  | c :: cs =>
    if c = '@' then some ([], cs)
    else
      match splitAtSign cs with
      | none => none
      | some (l, d) => some (c :: l, d)

/-- Modelled from the spec: the helper `splitAddress` is defined in a file of
the package other than the embedded ones. The account of an address is "the
local part before `@`", and "malformed addresses (cannot be split)" are
reported with an error. The side note in `AddRcpt` adds that the postmaster
address "will be always accepted and delivered to "postmaster" account for
both cases": a bare `postmaster`, in any letter case, is its own mailbox. -/
def modelSplitAddress (addr : String) : String × String × Option GoError :=
  match splitAtSign addr.data with
  | some (l, d) => (String.mk l, String.mk d, none)
  | none =>
    if asciiToLower addr = "postmaster" then (addr, "", none)
    else ("", "", some (.other "malformed address"))

/-- Modelled from the spec: the helper `sanitizeString` is defined in a file
of the package other than the embedded ones. It strips "control characters
and header-breaking sequences" from a text. -/
def modelSanitizeString (raw : String) : String :=
  String.mk (raw.data.filter fun c => !(c.toNat < 32 || c.toNat = 127))

/-- The helpers as modelled above. -/
def modelHelpers : Helpers :=
  { splitAddress := modelSplitAddress
    sanitizeString := modelSanitizeString
    ToLower := asciiToLower }

/-- A time given by its calendar fields in its own zone: a concrete carrier
for `TimeLib`. -/
structure Civil where
  year : Nat
  month : Nat
  day : Nat
  weekday : Nat
  hour : Nat
  minute : Nat
  second : Nat
  zoneMinutes : Int
  zoneName : String
deriving DecidableEq, Repr

/-- A number in at least two digits. -/
def pad2 (n : Nat) : List Char :=
  if n < 10 then '0' :: (toString n).data else (toString n).data

/-- A number in at least four digits. -/
def pad4 (n : Nat) : List Char :=
  if n < 10 then '0' :: '0' :: '0' :: (toString n).data
  else if n < 100 then '0' :: '0' :: (toString n).data
  else if n < 1000 then '0' :: (toString n).data
  else (toString n).data

/-- Abbreviated day names, Sunday first. -/
def dayNames : List String := ["Sun", "Mon", "Tue", "Wed", "Thu", "Fri", "Sat"]

/-- Abbreviated month names. -/
def monthNames : List String :=
  ["Jan", "Feb", "Mar", "Apr", "May", "Jun", "Jul", "Aug", "Sep", "Oct", "Nov", "Dec"]

/-- A zone offset as `±hhmm`. -/
def zoneDigits (z : Int) : List Char :=
  (if z < 0 then '-' else '+') :: (pad2 (z.natAbs / 60) ++ pad2 (z.natAbs % 60))

/-- Go layout interpretation, for the layout elements this code uses:
`Mon`, `Jan`, `2006`, `01`, `02`, `2`, `15`, `04`, `05`, `-0700`, `MST`;
every other character stands for itself. -/
def formatLayout (t : Civil) : List Char → List Char
  | 'M' :: 'o' :: 'n' :: rest => (dayNames.getD t.weekday "").data ++ formatLayout t rest
  | 'J' :: 'a' :: 'n' :: rest => (monthNames.getD (t.month - 1) "").data ++ formatLayout t rest
  | 'M' :: 'S' :: 'T' :: rest => t.zoneName.data ++ formatLayout t rest
  | '2' :: '0' :: '0' :: '6' :: rest => pad4 t.year ++ formatLayout t rest
  | '-' :: '0' :: '7' :: '0' :: '0' :: rest => zoneDigits t.zoneMinutes ++ formatLayout t rest
  | '0' :: '1' :: rest => pad2 t.month ++ formatLayout t rest
  | '0' :: '2' :: rest => pad2 t.day ++ formatLayout t rest
  | '1' :: '5' :: rest => pad2 t.hour ++ formatLayout t rest
  | '0' :: '4' :: rest => pad2 t.minute ++ formatLayout t rest
  | '0' :: '5' :: rest => pad2 t.second ++ formatLayout t rest
  | '2' :: rest => (toString t.day).data ++ formatLayout t rest
  | c :: rest => c :: formatLayout t rest
  | [] => []

/-- The zero time `time.Time{}`: 1 January of year 1, 00:00:00 UTC, a
Monday. -/
def Civil.zero : Civil :=
  { year := 1, month := 1, day := 1, weekday := 1, hour := 0, minute := 0, second := 0,
    zoneMinutes := 0, zoneName := "UTC" }

/-- The time library over calendar times. -/
def civilTime : TimeLib Civil :=
  { IsZero := fun t => decide (t = Civil.zero)
    Format := fun t layout => String.mk (formatLayout t layout.data)
    String := fun t => String.mk (formatLayout t "2006-01-02 15:04:05 -0700 MST".data) }

/-- A resolver answering every lookup with the given names. -/
def fixedResolver (names : List String) : Resolver :=
  { LookupAddr := fun _ => (names, none) }

/-- A fresh storage delivery in which exactly the given accounts exist. -/
def deliveryWithUsers (users : List String) : Delivery :=
  { calls := []
    respond := fun _ username _ =>
      if username ∈ users then none else some .ErrUserDoesntExists }

/-- A sample storage configuration: per-domain storage as given, accounts
`alice`, `bob` and `postmaster`, reverse lookups answering
`mail.example.net.`. -/
def sampleStorage (perDomain : Bool) : SQLStorage :=
  { back := { StartDelivery := (deliveryWithUsers ["alice", "bob", "postmaster"], none) }
    instName := "local_mailboxes"
    storagePerDomain := perDomain
    authPerDomain := false
    authDomains := []
    junkMbox := "Junk"
    resolver := fixedResolver ["mail.example.net."] }

/-- Sample message metadata: the values of the specification's example. -/
def sampleMeta : MsgMetadata :=
  { ID := "abc123"
    SrcProto := "ESMTP"
    SrcHostname := "mail.example.net"
    SrcAddr := .tcp { IP := ⟨"203.0.113.7"⟩, Port := 25, Zone := "" }
    OurHostname := "mx.example.com"
    DontTraceSender := false
    Quarantine := false
    BodyLength := 0 }

/-- A sample time: Monday 2 January 2006, 15:04:05, seven hours west. -/
def sampleTime : Civil :=
  { year := 2006, month := 1, day := 2, weekday := 1, hour := 15, minute := 4, second := 5,
    zoneMinutes := -420, zoneName := "MST" }

/-- The delivery `Start` opens on the sample storage for the sample message. -/
def sampleDelivery (perDomain : Bool) : sqlDelivery :=
  { sqlm := sampleStorage perDomain
    msgMeta := sampleMeta
    d := deliveryWithUsers ["alice", "bob", "postmaster"]
    mailFrom := "alice@example.com"
    addedRcpts := [] }

/-- The Received line as the specification writes it out, for a source
address that carries an IP: `name` is the reverse-DNS name shown, `stamp` the
formatted time. -/
def receivedLine (srcHostname name ip ourHostname mailFrom srcProto id rcptTo stamp : String) :
    String :=
  "from " ++ srcHostname ++ " (" ++ name ++ " [" ++ ip ++ "]) by " ++ ourHostname ++
    " (envelope-sender <" ++ mailFrom ++ ">) with " ++ srcProto ++ " id " ++ id ++
    " for " ++ rcptTo ++ "; " ++ stamp

/-- Helpers whose `sanitizeString` leaves every text as it is: with them
`generateReceived` interpolates its inputs verbatim. -/
def verbatim (hl : Helpers) : Helpers := { hl with sanitizeString := fun raw => raw }

/-- Message metadata with the source hostname and our hostname passed
through `sanitizeString`. -/
def sanitizedMeta (hl : Helpers) (msgMeta : MsgMetadata) : MsgMetadata :=
  { msgMeta with
    SrcHostname := hl.sanitizeString msgMeta.SrcHostname
    OurHostname := hl.sanitizeString msgMeta.OurHostname }

/-- Message metadata as a hostile peer can present it: a source hostname
carrying a line break and a forged header field. -/
def hostileMeta : MsgMetadata :=
  { sampleMeta with SrcHostname := "mail.example.net\r\nX-Forged: yes" }

/-- A writer that never fails and keeps what it is given, piece by piece:
a header as one line per field and an empty line, parts delimited by a
fixed boundary. -/
def listWriter : Textproto (List String) :=
  { NewMultipartWriter := fun w => w
    Boundary := fun _ => "boundary"
    CreatePart := fun w h => (none, w ++ ["--boundary"] ++ h.lines ++ [""])
    Close := fun w => (none, w ++ ["--boundary--"])
    WriteHeader := fun w h => (none, w ++ h.lines ++ [""])
    Write := fun w s => (none, w ++ [s]) }

/-- The recipient record of the specification's example: delivery to
`bob@example.org` failed with status 5.1.1 and the error "mailbox full". -/
def sampleRecipient : RecipientInfo :=
  { FinalRecipient := "bob@example.org"
    RemoteMTA := ""
    Action := "failed"
    Status := ⟨5, 1, 1⟩
    DiagnosticCode := some (.other "mailbox full") }

/-- A recipient record with a remote MTA and an SMTP diagnostic error. -/
def relayedRecipient : RecipientInfo :=
  { FinalRecipient := "carol@example.org"
    RemoteMTA := "mx.example.org"
    Action := "failed"
    Status := ⟨5, 2, 2⟩
    DiagnosticCode := some (.smtp ⟨552, ⟨5, 2, 2⟩, "mailbox full"⟩) }

/-- The sample recipient with no diagnostic error set. -/
def recipientWithoutDiagnostic : RecipientInfo :=
  { sampleRecipient with DiagnosticCode := none }

/-- A recipient record that fails validation: no final recipient. -/
def recipientWithoutAddress : RecipientInfo :=
  { sampleRecipient with FinalRecipient := "" }

/-- A later time than `sampleTime`: Tuesday 3 January 2006, 09:30:00. -/
def laterTime : Civil :=
  { year := 2006, month := 1, day := 3, weekday := 2, hour := 9, minute := 30, second := 0,
    zoneMinutes := -420, zoneName := "MST" }

/-- The reporting MTA of the specification's example, the message having
arrived at `arrival` and delivery last attempted at `lastAttempt`. -/
def sampleMTA (arrival lastAttempt : Civil) : ReportingMTAInfo Civil :=
  { ReportingMTA := "mx.example.com"
    ReceivedFromMTA := ""
    XSender := ""
    XMessageID := ""
    ArrivalDate := arrival
    LastAttemptDate := lastAttempt }

/-- The envelope of a sample report. -/
def sampleEnvelope : Envelope :=
  { MsgID := "<dsn-1@mx.example.com>"
    From := "MAILER-DAEMON@mx.example.com"
    To := "alice@example.com" }

/-- A recipient record misses a mandatory field: the final recipient, the
action, or the primary digit of the status. -/
def RecipientInfo.missingField (info : RecipientInfo) : Prop :=
  info.FinalRecipient = "" ∨ info.Action = "" ∨ info.Status.c0 = 0

/-- The value of the Diagnostic-Code field the specification gives for an
error: `smtp; <code> <d.d.d> <message>` for an SMTP error, `X-Maddy; <text>`
for any other. -/
def diagnosticCodeOf : GoError → String
  | .smtp e => "smtp; " ++ toString e.Code ++ " " ++ e.EnhancedCode.dotted ++ " " ++ e.Message
  | err => "X-Maddy; " ++ err.Error

/-- The header of the original message in a sample report. -/
def sampleFailedHeader : Header :=
  { fields := [("From", "alice@example.com"), ("To", "bob@example.org"), ("Subject", "Hello")] }

/-- The type `testCheckState` of `check_test.go`: each stage returns the
error configured for it. -/
def testCheckState (connErr senderErr rcptErr bodyErr : Option GoError) : CheckState :=
  { CheckConnection := fun _ => connErr
    CheckSender := fun _ _ => senderErr
    CheckRcpt := fun _ _ => rcptErr
    CheckBody := fun _ _ _ _ => bodyErr
    Close := none }

/-- A check that passes unless it finds its context cancelled. -/
def cancellableCheckState : CheckState :=
  { CheckConnection := fun ctx => if ctx.cancelled then some (.other "context canceled") else none
    CheckSender := fun ctx _ =>
      if ctx.cancelled then some (.other "context canceled") else none
    CheckRcpt := fun ctx _ => if ctx.cancelled then some (.other "context canceled") else none
    CheckBody := fun ctx _ _ _ =>
      if ctx.cancelled then some (.other "context canceled") else none
    Close := none }

/-- A group of three checks, the second of which rejects the recipient. -/
def sampleGroup : checkGroupState :=
  { msgMeta := sampleMeta
    states :=
      [testCheckState none none none none,
       testCheckState none none (some (.other "recipient refused")) none,
       cancellableCheckState] }

/-- The children return in the order third, first, second; every child
notices cancellation. -/
def sampleSchedule : Schedule :=
  { order := [2, 0, 1]
    notices := fun _ => true }

/-! # Properties -/

/-! ## Recipient registration (`sqlDelivery.AddRcpt`) -/

theorem AddRcpt_of_key_not_mem {Time : Type} (hl : Helpers) (tl : TimeLib Time) (now : Time)
    (sd : sqlDelivery) (rcptTo k : String)
    (hk : accountKey hl sd.sqlm rcptTo = some k) (hmem : k ∉ sd.addedRcpts) :
    sd.AddRcpt hl tl now rcptTo =
      match sd.d.AddRcpt (hl.ToLower k) (userHeaderFor hl tl now sd rcptTo) with
      | (some err, d) =>
        if err = .ErrUserDoesntExists ∨ err = .ErrNoSuchMailbox then
          (some (.smtp ⟨550, ⟨5, 1, 1⟩, "User doesn't exist"⟩), { sd with d := d })
        else
          (some err, { sd with d := d })
      | (none, d) => (none, { sd with d := d, addedRcpts := k :: sd.addedRcpts }) := by
  obtain ⟨split, san, low⟩ := hl
  unfold accountKey at hk
  unfold sqlDelivery.AddRcpt userHeaderFor
  by_cases hpd : sd.sqlm.storagePerDomain = true
  · simp only [hpd, if_true, Option.some.injEq] at hk ⊢
    simp [hk, hmem]
  · simp only [hpd] at hk ⊢
    rcases hs : split rcptTo with ⟨mailbox, domain, err⟩
    rw [hs] at hk
    cases err with
    | some e => simp at hk
    | none =>
      simp at hk
      subst hk
      simp [hs, hmem]

/-- The sample delivery is the one `Start` opens on the sample storage: no
recipient accepted, no registration made. -/
theorem sampleDelivery_from_Start (perDomain : Bool) :
    (sampleStorage perDomain).Start sampleMeta "alice@example.com" =
      (some (sampleDelivery perDomain), none)
    ∧ (sampleDelivery perDomain).addedRcpts = []
    ∧ (sampleDelivery perDomain).d.calls = [] :=
  ⟨rfl, rfl, rfl⟩

/-- C2: for a recipient whose account `k` is not yet accepted, when the
backend answers the registration with an error `e`, `AddRcpt` returns the SMTP
rejection 550 with enhanced code 5.1.1 if `e` is the backend's
"user does not exist" or "no such mailbox" error, and `e` itself otherwise. -/
theorem AddRcpt_backend_error {Time : Type} (hl : Helpers) (tl : TimeLib Time) (now : Time)
    (sd : sqlDelivery) (rcptTo k : String) (e : GoError)
    (hk : accountKey hl sd.sqlm rcptTo = some k) (hnew : k ∉ sd.addedRcpts)
    (he : (sd.d.AddRcpt (hl.ToLower k) (userHeaderFor hl tl now sd rcptTo)).1 = some e) :
    ((e = .ErrUserDoesntExists ∨ e = .ErrNoSuchMailbox) →
        (sd.AddRcpt hl tl now rcptTo).1 =
          some (.smtp
            { Code := 550, EnhancedCode := ⟨5, 1, 1⟩, Message := "User doesn't exist" }))
    ∧ (¬ (e = .ErrUserDoesntExists ∨ e = .ErrNoSuchMailbox) →
        (sd.AddRcpt hl tl now rcptTo).1 = some e) := by
  rw [AddRcpt_of_key_not_mem hl tl now sd rcptTo k hk hnew]
  rcases hr : sd.d.AddRcpt (hl.ToLower k) (userHeaderFor hl tl now sd rcptTo) with ⟨r, d⟩
  rw [hr] at he
  simp only at he
  subst he
  constructor
  · intro h; simp only [if_pos h]
  · intro h; simp only [if_neg h]

theorem AddRcpt_backend_error_witness :
    ((GoError.ErrUserDoesntExists = .ErrUserDoesntExists ∨
        GoError.ErrUserDoesntExists = .ErrNoSuchMailbox) →
        ((sampleDelivery false).AddRcpt modelHelpers civilTime sampleTime
            "carol@example.org").1 =
          some (.smtp
            { Code := 550, EnhancedCode := ⟨5, 1, 1⟩, Message := "User doesn't exist" }))
    ∧ (¬ (GoError.ErrUserDoesntExists = .ErrUserDoesntExists ∨
        GoError.ErrUserDoesntExists = .ErrNoSuchMailbox) →
        ((sampleDelivery false).AddRcpt modelHelpers civilTime sampleTime
            "carol@example.org").1 = some .ErrUserDoesntExists) :=
  AddRcpt_backend_error modelHelpers civilTime sampleTime (sampleDelivery false)
    "carol@example.org" "carol" .ErrUserDoesntExists (by decide) (by decide) (by decide)

/-- Whenever `splitAddress` reports an error for the address, `AddRcpt` with
per-domain storage off returns the rejection 501 / 5.1.3 built from it and
leaves the delivery untouched. -/
theorem AddRcpt_of_split_error {Time : Type} (hl : Helpers) (tl : TimeLib Time) (now : Time)
    (sd : sqlDelivery) (rcptTo : String) (err : GoError)
    (hoff : sd.sqlm.storagePerDomain = false)
    (hsplit : (hl.splitAddress rcptTo).2.2 = some err) :
    sd.AddRcpt hl tl now rcptTo =
      (some (.smtp
        { Code := 501
          EnhancedCode := ⟨5, 1, 3⟩
          Message := "Invalid recipient address: " ++ err.Error }), sd) := by
  obtain ⟨split, san, low⟩ := hl
  unfold sqlDelivery.AddRcpt
  rcases hs : split rcptTo with ⟨mailbox, domain, e⟩
  simp only [hs] at hsplit
  subst hsplit
  simp [hoff, hs]

theorem splitAtSign_of_no_at (cs : List Char) (h : '@' ∉ cs) : splitAtSign cs = none := by
  induction cs with
  | nil => rfl
  | cons c rest ih =>
    have hc : c ≠ '@' := fun hc => h (hc ▸ List.mem_cons_self _ _)
    have hrest : '@' ∉ rest := fun hr => h (List.mem_cons_of_mem _ hr)
    simp [splitAtSign, hc, ih hrest]

/-- The modelled `splitAddress` reports an error for every address that has
no `@` and is not a bare postmaster. -/
theorem modelSplitAddress_of_no_at (addr : String) (hat : '@' ∉ addr.data)
    (hpm : asciiToLower addr ≠ "postmaster") :
    (modelSplitAddress addr).2.2 = some (.other "malformed address") := by
  unfold modelSplitAddress
  rw [splitAtSign_of_no_at _ hat]
  simp [hpm]

/-- C3, as stated, fails: with per-domain storage off, the address
`postmaster` has no `@`, yet `AddRcpt` returns no error and registers the
recipient with the backend, as the side note in `AddRcpt` announces. -/
theorem AddRcpt_bare_postmaster_accepted :
    (sampleDelivery false).sqlm.storagePerDomain = false
    ∧ '@' ∉ "postmaster".data
    ∧ ((sampleDelivery false).AddRcpt modelHelpers civilTime sampleTime "postmaster").1 = none
    ∧ (((sampleDelivery false).AddRcpt modelHelpers civilTime sampleTime
        "postmaster").2.d.calls.map fun c => c.1) = ["postmaster"] := by
  decide

/-- C3, amended: with per-domain storage off, for every recipient address
that has no `@` and is not the bare postmaster address (in any letter case),
`AddRcpt` returns the SMTP rejection 501 with enhanced code 5.1.3 and leaves
the delivery untouched: no registration reaches the backend. `splitAddress`
is the helper as modelled; the other helpers are arbitrary. -/
theorem AddRcpt_malformed {Time : Type} (hl : Helpers) (tl : TimeLib Time) (now : Time)
    (sd : sqlDelivery) (rcptTo : String)
    (hhelper : hl.splitAddress = modelSplitAddress)
    (hoff : sd.sqlm.storagePerDomain = false)
    (hat : '@' ∉ rcptTo.data)
    (hpm : asciiToLower rcptTo ≠ "postmaster") :
    ∃ message : String,
      sd.AddRcpt hl tl now rcptTo =
        (some (.smtp { Code := 501, EnhancedCode := ⟨5, 1, 3⟩, Message := message }), sd)
      ∧ (sd.AddRcpt hl tl now rcptTo).2.d.calls = sd.d.calls := by
  have hsplit : (hl.splitAddress rcptTo).2.2 = some (.other "malformed address") := by
    rw [hhelper]; exact modelSplitAddress_of_no_at rcptTo hat hpm
  have h := AddRcpt_of_split_error hl tl now sd rcptTo _ hoff hsplit
  exact ⟨_, h, by rw [h]⟩

theorem AddRcpt_malformed_witness :
    ∃ message : String,
      (sampleDelivery false).AddRcpt modelHelpers civilTime sampleTime "bob.example.org" =
        (some (.smtp { Code := 501, EnhancedCode := ⟨5, 1, 3⟩, Message := message }),
          sampleDelivery false)
      ∧ ((sampleDelivery false).AddRcpt modelHelpers civilTime sampleTime
          "bob.example.org").2.d.calls = (sampleDelivery false).d.calls :=
  AddRcpt_malformed modelHelpers civilTime sampleTime (sampleDelivery false) "bob.example.org"
    rfl (by decide) (by decide) (by decide)

/-! ## The Received line (`generateReceived`) -/

/-- C7, as stated, fails: a resolver that yields the name `mail.example.net.`
(with the trailing dot of a fully qualified name) does not make
`generateReceived` show that name; the line it returns differs from the one
the claim gives. -/
theorem generateReceived_name_not_verbatim :
    sampleMeta.DontTraceSender = false
    ∧ sampleMeta.SrcAddr = .tcp { IP := ⟨"203.0.113.7"⟩, Port := 25, Zone := "" }
    ∧ (fixedResolver ["mail.example.net."]).LookupAddr "203.0.113.7" =
        (["mail.example.net."], none)
    ∧ modelHelpers.sanitizeString "alice@example.com" = "alice@example.com"
    ∧ modelHelpers.sanitizeString sampleMeta.OurHostname = sampleMeta.OurHostname
    ∧ generateReceived modelHelpers civilTime sampleTime (fixedResolver ["mail.example.net."])
        sampleMeta "alice@example.com" "bob@example.org" ≠
      receivedLine "mail.example.net" "mail.example.net." "203.0.113.7" "mx.example.com"
        "alice@example.com" "ESMTP" "abc123" "bob@example.org"
        (civilTime.Format sampleTime RFC1123Z) := by
  set_option maxRecDepth 100000 in decide

/-- C7, amended: when sender tracing is not suppressed, the source address is
a TCP address, the resolver's reverse lookup of its IP yields the name `n`
first and no error, and sanitization leaves the sender and our hostname
unchanged, `generateReceived` returns the line of the specification with `n`
shown without its trailing dots. -/
theorem generateReceived_line {Time : Type} (hl : Helpers) (tl : TimeLib Time) (now : Time)
    (r : Resolver) (msgMeta : MsgMetadata) (mailFrom rcptTo : String)
    (tcpAddr : TCPAddr) (n : String) (more : List String)
    (htrace : msgMeta.DontTraceSender = false)
    (hsrc : msgMeta.SrcAddr = .tcp tcpAddr)
    (hlookup : r.LookupAddr tcpAddr.IP.String = (n :: more, none))
    (hfrom : hl.sanitizeString mailFrom = mailFrom)
    (hour : hl.sanitizeString msgMeta.OurHostname = msgMeta.OurHostname) :
    generateReceived hl tl now r msgMeta mailFrom rcptTo =
      receivedLine msgMeta.SrcHostname (TrimRight n ".") tcpAddr.IP.String msgMeta.OurHostname
        mailFrom msgMeta.SrcProto msgMeta.ID rcptTo (tl.Format now RFC1123Z) := by
  have h1 : ∀ x : String, "])" ++ (" by " ++ x) = "]) by " ++ x := fun x => by
    rw [← String.append_assoc]; rfl
  have h2 : ∀ x : String, ">)" ++ (" with " ++ x) = ">) with " ++ x := fun x => by
    rw [← String.append_assoc]; rfl
  unfold generateReceived LookupAddr receivedLine
  simp [htrace, hsrc, hlookup, hfrom, hour, String.append_assoc, h1, h2]

theorem generateReceived_line_witness :
    generateReceived modelHelpers civilTime sampleTime (fixedResolver ["mail.example.net."])
        sampleMeta "alice@example.com" "bob@example.org" =
      receivedLine sampleMeta.SrcHostname (TrimRight "mail.example.net." ".")
        (TCPAddr.mk ⟨"203.0.113.7"⟩ 25 "").IP.String sampleMeta.OurHostname
        "alice@example.com" sampleMeta.SrcProto sampleMeta.ID "bob@example.org"
        (civilTime.Format sampleTime RFC1123Z) :=
  generateReceived_line modelHelpers civilTime sampleTime (fixedResolver ["mail.example.net."])
    sampleMeta "alice@example.com" "bob@example.org" ⟨⟨"203.0.113.7"⟩, 25, ""⟩
    "mail.example.net." [] (by decide) (by decide) (by decide) (by decide) (by decide)

/-- What `generateReceived` does sanitize: our hostname and the sender. The
line equals the one built verbatim from the sanitized our-hostname and the
sanitized sender, the source hostname being taken as it is. -/
theorem generateReceived_sanitizes_ours_and_sender {Time : Type} (hl : Helpers)
    (tl : TimeLib Time) (now : Time) (r : Resolver) (msgMeta : MsgMetadata)
    (mailFrom rcptTo : String) :
    generateReceived hl tl now r msgMeta mailFrom rcptTo =
      generateReceived (verbatim hl) tl now r
        { msgMeta with OurHostname := hl.sanitizeString msgMeta.OurHostname }
        (hl.sanitizeString mailFrom) rcptTo := by
  unfold generateReceived verbatim
  rfl

theorem append_right_cancel_str (a b c : String) (h : a ++ c = b ++ c) : a = b := by
  have h' := congrArg String.data h
  simp only [String.data_append] at h'
  exact String.ext (List.append_cancel_right h')

theorem append_left_cancel_str (a b c : String) (h : c ++ a = c ++ b) : a = b := by
  have h' := congrArg String.data h
  simp only [String.data_append] at h'
  exact String.ext (List.append_cancel_left h')

/-- With sender tracing on, the line `generateReceived` returns equals the
line built from the sanitized source hostname, our hostname and sender
exactly when sanitization leaves the source hostname unchanged. -/
theorem generateReceived_eq_sanitized_iff {Time : Type} (hl : Helpers) (tl : TimeLib Time)
    (now : Time) (r : Resolver) (msgMeta : MsgMetadata) (mailFrom rcptTo : String)
    (htrace : msgMeta.DontTraceSender = false) :
    generateReceived hl tl now r msgMeta mailFrom rcptTo =
        generateReceived (verbatim hl) tl now r (sanitizedMeta hl msgMeta)
          (hl.sanitizeString mailFrom) rcptTo
      ↔ hl.sanitizeString msgMeta.SrcHostname = msgMeta.SrcHostname := by
  unfold generateReceived verbatim sanitizedMeta
  simp only [htrace, Bool.not_false, if_true]
  constructor
  · intro h
    have h1 := append_right_cancel_str _ _ _ h
    have h2 := append_right_cancel_str _ _ _ h1
    have h3 := append_right_cancel_str _ _ _ h2
    cases hs : msgMeta.SrcAddr with
    | tcp a =>
      rw [hs] at h3
      simp only at h3
      by_cases he : (LookupAddr r a.IP).2 = none
      · simp only [he, ne_eq, not_true_eq_false, if_false] at h3
        have h4 := append_right_cancel_str _ _ _ h3
        exact (append_left_cancel_str _ _ _ (append_left_cancel_str _ _ _ h4)).symm
      · simp only [he, ne_eq, not_false_eq_true, if_true] at h3
        have h4 := append_right_cancel_str _ _ _ h3
        exact (append_left_cancel_str _ _ _ (append_left_cancel_str _ _ _ h4)).symm
    | none =>
      rw [hs] at h3
      exact (append_left_cancel_str _ _ _ (append_left_cancel_str _ _ _ h3)).symm
    | other n t =>
      rw [hs] at h3
      exact (append_left_cancel_str _ _ _ (append_left_cancel_str _ _ _ h3)).symm
  · intro h
    rw [h]

/-- C8 at a failing input: for a source hostname carrying a line break, the
line `generateReceived` returns is not the line built from the sanitized
source hostname, sanitized our-hostname and sanitized sender; the line break
reaches the header. -/
theorem generateReceived_source_hostname_unsanitized :
    generateReceived modelHelpers civilTime sampleTime (fixedResolver ["mail.example.net."])
        hostileMeta "alice@example.com" "bob@example.org" ≠
      generateReceived (verbatim modelHelpers) civilTime sampleTime
        (fixedResolver ["mail.example.net."]) (sanitizedMeta modelHelpers hostileMeta)
        (modelHelpers.sanitizeString "alice@example.com") "bob@example.org"
    ∧ '\n' ∈ (generateReceived modelHelpers civilTime sampleTime
        (fixedResolver ["mail.example.net."]) hostileMeta "alice@example.com"
        "bob@example.org").data := by
  set_option maxRecDepth 100000 in decide

/-! ## Delivery status notifications (`dsn.go`) -/

theorem RecipientInfo_WriteTo_missingField {W : Type} (tp : Textproto W) (info : RecipientInfo)
    (w : W) (h : info.missingField) :
    ∃ err, info.WriteTo tp w = .done (some err) w := by
  unfold RecipientInfo.WriteTo
  by_cases h1 : info.FinalRecipient = ""
  · exact ⟨.other "dsn: Final-Recipient is required", by simp [h1]⟩
  · by_cases h2 : info.Action = ""
    · exact ⟨.other "dsn: Action is required", by simp [h1, h2]⟩
    · have h3 : info.Status.c0 = 0 := by
        rcases h with h | h | h
        · exact absurd h h1
        · exact absurd h h2
        · exact h
      exact ⟨.other "dsn: Status is required", by simp [h1, h2, h3]⟩

theorem RecipientInfo_WriteTo_of_diagnostic {W : Type} (tp : Textproto W) (info : RecipientInfo)
    (w : W) (e : GoError) (hfr : info.FinalRecipient ≠ "") (hact : info.Action ≠ "")
    (hst : info.Status.c0 ≠ 0) (hdiag : info.DiagnosticCode = some e) :
    info.WriteTo tp w =
      .done
        (tp.WriteHeader w
          ⟨[("Final-Recipient", "rfc822; " ++ info.FinalRecipient),
            ("Action", info.Action),
            ("Status", info.Status.dotted),
            ("Diagnostic-Code", diagnosticCodeOf e)] ++
           (if info.RemoteMTA = "" then [] else [("Remote-Mta", "dns; " ++ info.RemoteMTA)])⟩).1
        (tp.WriteHeader w
          ⟨[("Final-Recipient", "rfc822; " ++ info.FinalRecipient),
            ("Action", info.Action),
            ("Status", info.Status.dotted),
            ("Diagnostic-Code", diagnosticCodeOf e)] ++
           (if info.RemoteMTA = "" then []
            else [("Remote-Mta", "dns; " ++ info.RemoteMTA)])⟩).2 := by
  have c1 : CanonicalMIMEHeaderKey "Final-Recipient" = "Final-Recipient" := by decide
  have c2 : CanonicalMIMEHeaderKey "Action" = "Action" := by decide
  have c3 : CanonicalMIMEHeaderKey "Status" = "Status" := by decide
  have c4 : CanonicalMIMEHeaderKey "Diagnostic-Code" = "Diagnostic-Code" := by decide
  have c5 : CanonicalMIMEHeaderKey "Remote-MTA" = "Remote-Mta" := by decide
  unfold RecipientInfo.WriteTo
  simp only [hfr, hact, hst, if_false, hdiag]
  by_cases hr : info.RemoteMTA = ""
  · cases e <;> simp [hr, Header.Add, Header.empty, diagnosticCodeOf, c1, c2, c3, c4, c5]
  · cases e <;> simp [hr, Header.Add, Header.empty, diagnosticCodeOf, c1, c2, c3, c4, c5]

theorem RecipientInfo_WriteTo_never_panics_with_diagnostic {W : Type} (tp : Textproto W)
    (info : RecipientInfo) (w : W) (hdiag : info.DiagnosticCode ≠ none) :
    ∃ err w', info.WriteTo tp w = .done err w' := by
  by_cases hm : info.missingField
  · obtain ⟨err, h⟩ := RecipientInfo_WriteTo_missingField tp info w hm
    exact ⟨_, _, h⟩
  · unfold RecipientInfo.missingField at hm
    push_neg at hm
    obtain ⟨e, he⟩ := Option.ne_none_iff_exists'.mp hdiag
    exact ⟨_, _, RecipientInfo_WriteTo_of_diagnostic tp info w e hm.1 hm.2.1 hm.2.2 he⟩

theorem writeRecipientRecords_missingField {W : Type} (tp : Textproto W)
    (rcptsInfo : List RecipientInfo) (w : W)
    (hdiag : ∀ r ∈ rcptsInfo, r.DiagnosticCode ≠ none)
    (hbad : ∃ r ∈ rcptsInfo, r.missingField) :
    ∃ err w', writeRecipientRecords tp rcptsInfo w = .done (some err) w' := by
  induction rcptsInfo generalizing w with
  | nil => obtain ⟨r, hr, _⟩ := hbad; cases hr
  | cons rcpt rest ih =>
    unfold writeRecipientRecords
    obtain ⟨err, w', h⟩ := RecipientInfo_WriteTo_never_panics_with_diagnostic tp rcpt w
      (hdiag rcpt (List.mem_cons_self _ _))
    by_cases hm : rcpt.missingField
    · obtain ⟨err', h'⟩ := RecipientInfo_WriteTo_missingField tp rcpt w hm
      rw [h']
      exact ⟨_, _, rfl⟩
    · rw [h]
      cases err with
      | some e => exact ⟨_, _, rfl⟩
      | none =>
        simp only
        apply ih
        · intro r hr; exact hdiag r (List.mem_cons_of_mem _ hr)
        · obtain ⟨r, hr, hrm⟩ := hbad
          rcases List.mem_cons.mp hr with rfl | hr'
          · exact absurd hrm hm
          · exact ⟨r, hr', hrm⟩

/-- GenerateDSN fails validation on an empty Reporting-MTA, whatever the
recipients: it returns an error and the empty header. -/
theorem GenerateDSN_missing_reporting_mta {Time W : Type} (tl : TimeLib Time)
    (tp : Textproto W) (now : Time) (envelope : Envelope) (mtaInfo : ReportingMTAInfo Time)
    (rcptsInfo : List RecipientInfo) (failedHeader : Header) (outWriter : W)
    (hmta : mtaInfo.ReportingMTA = "") :
    ∃ err w, GenerateDSN tl tp now envelope mtaInfo rcptsInfo failedHeader outWriter =
      .done (Header.empty, some err) w := by
  unfold GenerateDSN
  simp only
  rcases writeHumanReadablePart tl tp (tp.NewMultipartWriter outWriter) envelope mtaInfo
    rcptsInfo with ⟨herr, w1⟩
  cases herr with
  | some e => exact ⟨_, _, rfl⟩
  | none =>
    simp only
    unfold writeMachineReadablePart
    simp only
    rcases tp.CreatePart w1 _ with ⟨cerr, w2⟩
    cases cerr with
    | some e => exact ⟨_, _, rfl⟩
    | none =>
      simp only [ReportingMTAInfo.WriteTo, hmta, if_true]
      exact ⟨_, _, rfl⟩

/-- GenerateDSN fails validation on a recipient that misses a mandatory
field, wherever it stands, as long as every recipient carries a diagnostic
error: it returns an error and the empty header. -/
theorem GenerateDSN_recipient_missingField {Time W : Type} (tl : TimeLib Time)
    (tp : Textproto W) (now : Time) (envelope : Envelope) (mtaInfo : ReportingMTAInfo Time)
    (rcptsInfo : List RecipientInfo) (failedHeader : Header) (outWriter : W)
    (hdiag : ∀ r ∈ rcptsInfo, r.DiagnosticCode ≠ none)
    (hbad : ∃ r ∈ rcptsInfo, r.missingField) :
    ∃ err w, GenerateDSN tl tp now envelope mtaInfo rcptsInfo failedHeader outWriter =
      .done (Header.empty, some err) w := by
  unfold GenerateDSN
  simp only
  rcases writeHumanReadablePart tl tp (tp.NewMultipartWriter outWriter) envelope mtaInfo
    rcptsInfo with ⟨herr, w1⟩
  cases herr with
  | some e => exact ⟨_, _, rfl⟩
  | none =>
    simp only
    unfold writeMachineReadablePart
    simp only
    rcases tp.CreatePart w1 _ with ⟨cerr, w2⟩
    cases cerr with
    | some e => exact ⟨_, _, rfl⟩
    | none =>
      simp only
      rcases ReportingMTAInfo.WriteTo tl tp mtaInfo w2 with ⟨merr, w3⟩
      cases merr with
      | some e => exact ⟨_, _, rfl⟩
      | none =>
        simp only
        obtain ⟨err, w', h⟩ := writeRecipientRecords_missingField tp rcptsInfo w3 hdiag hbad
        rw [h]
        exact ⟨_, _, rfl⟩

/-- C4 at a failing input: with a Reporting-MTA set and a writer that never
fails, a recipient list whose second record has no final recipient and whose
first, complete, record has no diagnostic error makes `GenerateDSN` panic
while writing the first record; no error is returned. -/
theorem GenerateDSN_panics_before_invalid_recipient :
    recipientWithoutAddress.missingField
    ∧ (∃ w, GenerateDSN civilTime listWriter laterTime sampleEnvelope
        (sampleMTA sampleTime laterTime) [recipientWithoutDiagnostic, recipientWithoutAddress]
        sampleFailedHeader [] = .panic w)
    ∧ ¬ ∃ err w, GenerateDSN civilTime listWriter laterTime sampleEnvelope
        (sampleMTA sampleTime laterTime) [recipientWithoutDiagnostic, recipientWithoutAddress]
        sampleFailedHeader [] = .done (Header.empty, some err) w := by
  have h : ∃ w, GenerateDSN civilTime listWriter laterTime sampleEnvelope
      (sampleMTA sampleTime laterTime) [recipientWithoutDiagnostic, recipientWithoutAddress]
      sampleFailedHeader [] = .panic w := ⟨_, rfl⟩
  refine ⟨Or.inl rfl, h, ?_⟩
  obtain ⟨w, hw⟩ := h
  rintro ⟨err, w', h'⟩
  rw [hw] at h'
  cases h'

/-- C5, as stated, fails: for a record that passes validation and has a
remote MTA, the record written has no line `Remote-MTA: dns; mx.example.org`;
the field is stored and written under its canonical name `Remote-Mta`. -/
theorem RecipientInfo_WriteTo_remote_mta_key :
    relayedRecipient.FinalRecipient ≠ ""
    ∧ relayedRecipient.Action ≠ ""
    ∧ relayedRecipient.Status.c0 ≠ 0
    ∧ relayedRecipient.RemoteMTA ≠ ""
    ∧ relayedRecipient.WriteTo listWriter [] =
        .done none
          ["Final-Recipient: rfc822; carol@example.org",
           "Action: failed",
           "Status: 5.2.2",
           "Diagnostic-Code: smtp; 552 5.2.2 mailbox full",
           "Remote-Mta: dns; mx.example.org",
           ""]
    ∧ "Remote-MTA: dns; mx.example.org" ∉
          ["Final-Recipient: rfc822; carol@example.org",
           "Action: failed",
           "Status: 5.2.2",
           "Diagnostic-Code: smtp; 552 5.2.2 mailbox full",
           "Remote-Mta: dns; mx.example.org",
           ""] := by
  decide

/-- C5, amended: for a recipient record that passes validation and carries
the diagnostic error `e`, `WriteTo` hands `textproto.WriteHeader` one record
whose lines are `Final-Recipient: rfc822; <FinalRecipient>`,
`Action: <Action>`, `Status: <d>.<d>.<d>`, a Diagnostic-Code line reading
`smtp; <Code> <d>.<d>.<d> <Message>` when `e` is an SMTP error and
`X-Maddy; <error text>` otherwise, and a line `Remote-Mta: dns; <RemoteMTA>`
exactly when `RemoteMTA` is not empty; what `WriteTo` returns is what that
write returns. -/
theorem RecipientInfo_WriteTo_lines {W : Type} (tp : Textproto W) (info : RecipientInfo)
    (w : W) (e : GoError) (hfr : info.FinalRecipient ≠ "") (hact : info.Action ≠ "")
    (hst : info.Status.c0 ≠ 0) (hdiag : info.DiagnosticCode = some e) :
    ∃ h : Header,
      info.WriteTo tp w = .done (tp.WriteHeader w h).1 (tp.WriteHeader w h).2
      ∧ h.lines =
          ["Final-Recipient: rfc822; " ++ info.FinalRecipient,
           "Action: " ++ info.Action,
           "Status: " ++ (toString info.Status.c0 ++ "." ++ toString info.Status.c1 ++ "." ++
              toString info.Status.c2),
           "Diagnostic-Code: " ++
              (match e with
               | .smtp smtpErr =>
                 "smtp; " ++ toString smtpErr.Code ++ " " ++
                   (toString smtpErr.EnhancedCode.c0 ++ "." ++
                    toString smtpErr.EnhancedCode.c1 ++ "." ++
                    toString smtpErr.EnhancedCode.c2) ++ " " ++ smtpErr.Message
               | other => "X-Maddy; " ++ other.Error)] ++
          (if info.RemoteMTA = "" then [] else ["Remote-Mta: dns; " ++ info.RemoteMTA]) := by
  refine ⟨_, RecipientInfo_WriteTo_of_diagnostic tp info w e hfr hact hst hdiag, ?_⟩
  have k1 : ∀ x : String, "Final-Recipient: " ++ ("rfc822; " ++ x) =
      "Final-Recipient: rfc822; " ++ x := fun x => by
    rw [← String.append_assoc]; rfl
  have k2 : ∀ x : String, "Remote-Mta: " ++ ("dns; " ++ x) = "Remote-Mta: dns; " ++ x :=
    fun x => by rw [← String.append_assoc]; rfl
  have k3 : ∀ x : String, "Action" ++ ": " ++ x = "Action: " ++ x := fun x => rfl
  have k4 : ∀ x : String, "Status" ++ ": " ++ x = "Status: " ++ x := fun x => rfl
  have k5 : ∀ x : String, "Diagnostic-Code" ++ ": " ++ x = "Diagnostic-Code: " ++ x :=
    fun x => rfl
  by_cases hr : info.RemoteMTA = ""
  · cases e <;>
      simp [Header.lines, fieldLine, hr, k1, k3, k4, k5, diagnosticCodeOf, EnhancedCode.dotted]
  · cases e <;>
      simp [Header.lines, fieldLine, hr, k1, k2, k3, k4, k5, diagnosticCodeOf,
        EnhancedCode.dotted]

theorem RecipientInfo_WriteTo_lines_witness :
    ∃ h : Header,
      relayedRecipient.WriteTo listWriter [] =
        .done (listWriter.WriteHeader [] h).1 (listWriter.WriteHeader [] h).2
      ∧ h.lines =
          ["Final-Recipient: rfc822; carol@example.org",
           "Action: failed",
           "Status: 5.2.2",
           "Diagnostic-Code: smtp; 552 5.2.2 mailbox full",
           "Remote-Mta: dns; mx.example.org"] :=
  RecipientInfo_WriteTo_lines listWriter relayedRecipient []
    (.smtp ⟨552, ⟨5, 2, 2⟩, "mailbox full"⟩) (by decide) (by decide) (by decide) rfl

/-- The record of the specification's example: its four lines are written as
the specification quotes them. -/
theorem sampleRecipient_lines :
    sampleRecipient.WriteTo listWriter [] =
      .done none
        ["Final-Recipient: rfc822; bob@example.org",
         "Action: failed",
         "Status: 5.1.1",
         "Diagnostic-Code: X-Maddy; mailbox full",
         ""] := by
  decide

/-- What `ReportingMTAInfo.WriteTo` does with the two dates: with a
Reporting-MTA set, the record handed to `textproto.WriteHeader` carries both
Arrival-Date and Last-Attempt-Date, each holding `ArrivalDate`, when
`ArrivalDate` is set, and neither field when it is not; `LastAttemptDate`
is not consulted. -/
theorem ReportingMTAInfo_WriteTo_dates {Time W : Type} (tl : TimeLib Time) (tp : Textproto W)
    (info : ReportingMTAInfo Time) (w : W) (hmta : info.ReportingMTA ≠ "") :
    ∃ h : Header,
      info.WriteTo tl tp w = tp.WriteHeader w h
      ∧ (tl.IsZero info.ArrivalDate = false →
          (h.fields.filter fun f => f.1 = "Arrival-Date" ∨ f.1 = "Last-Attempt-Date") =
            [("Arrival-Date", tl.Format info.ArrivalDate dateLayout),
             ("Last-Attempt-Date", tl.Format info.ArrivalDate dateLayout)])
      ∧ (tl.IsZero info.ArrivalDate = true →
          (h.fields.filter fun f => f.1 = "Arrival-Date" ∨ f.1 = "Last-Attempt-Date") = []) := by
  have c1 : CanonicalMIMEHeaderKey "Reporting-MTA" = "Reporting-Mta" := by decide
  have c2 : CanonicalMIMEHeaderKey "Received-From-MTA" = "Received-From-Mta" := by decide
  have c3 : CanonicalMIMEHeaderKey "X-Maddy-Sender" = "X-Maddy-Sender" := by decide
  have c4 : CanonicalMIMEHeaderKey "X-Maddy-MsgID" = "X-Maddy-Msgid" := by decide
  have c5 : CanonicalMIMEHeaderKey "Arrival-Date" = "Arrival-Date" := by decide
  have c6 : CanonicalMIMEHeaderKey "Last-Attempt-Date" = "Last-Attempt-Date" := by decide
  refine ⟨_, by unfold ReportingMTAInfo.WriteTo; simp only [hmta, if_false]; rfl, ?_, ?_⟩
  · intro hz
    by_cases h1 : info.ReceivedFromMTA = "" <;> by_cases h2 : info.XSender = "" <;>
      by_cases h3 : info.XMessageID = "" <;>
      simp [hz, h1, h2, h3, Header.Add, Header.empty, List.filter, c1, c2, c3, c4, c5, c6]
  · intro hz
    by_cases h1 : info.ReceivedFromMTA = "" <;> by_cases h2 : info.XSender = "" <;>
      by_cases h3 : info.XMessageID = "" <;>
      simp [hz, h1, h2, h3, Header.Add, Header.empty, List.filter, c1, c2, c3, c4, c5, c6]

/-- C6 at failing inputs. With `ArrivalDate` unset and `LastAttemptDate` set
the record has no Last-Attempt-Date field; with both set, to different times,
its Last-Attempt-Date field carries `ArrivalDate`. -/
theorem ReportingMTAInfo_WriteTo_last_attempt_date :
    civilTime.IsZero laterTime = false
    ∧ (sampleMTA Civil.zero laterTime).WriteTo civilTime listWriter [] =
        (none, ["Reporting-Mta: dns; mx.example.com", ""])
    ∧ civilTime.Format laterTime dateLayout = "Tue, 3 Jan 2006 09:30:00 -0700"
    ∧ (sampleMTA sampleTime laterTime).WriteTo civilTime listWriter [] =
        (none, ["Reporting-Mta: dns; mx.example.com",
                "Arrival-Date: Mon, 2 Jan 2006 15:04:05 -0700",
                "Last-Attempt-Date: Mon, 2 Jan 2006 15:04:05 -0700", ""]) := by
  set_option maxRecDepth 100000 in decide

/-- A recipient record that passes validation but has a nil `DiagnosticCode`
makes `WriteTo` panic, before anything is written. -/
theorem RecipientInfo_WriteTo_nil_diagnostic {W : Type} (tp : Textproto W)
    (info : RecipientInfo) (w : W) (hfr : info.FinalRecipient ≠ "") (hact : info.Action ≠ "")
    (hst : info.Status.c0 ≠ 0) (hdiag : info.DiagnosticCode = none) :
    info.WriteTo tp w = .panic w := by
  unfold RecipientInfo.WriteTo
  simp [hfr, hact, hst, hdiag]

/-- A recipient record that passes validation and has a diagnostic error is
written without panic and without error by a writer that never fails. -/
theorem RecipientInfo_WriteTo_succeeds {W : Type} (tp : Textproto W) (info : RecipientInfo)
    (w : W) (e : GoError) (hfr : info.FinalRecipient ≠ "") (hact : info.Action ≠ "")
    (hst : info.Status.c0 ≠ 0) (hdiag : info.DiagnosticCode = some e)
    (hw : ∀ w h, (tp.WriteHeader w h).1 = none) :
    ∃ w', info.WriteTo tp w = .done none w' := by
  rw [RecipientInfo_WriteTo_of_diagnostic tp info w e hfr hact hst hdiag, hw]
  exact ⟨_, rfl⟩

/-- C10 at a failing input: the record for `bob@example.org`, action failed,
status 5.1.1, with no diagnostic error, passes validation, and `WriteTo`
panics on it although the writer never fails. -/
theorem RecipientInfo_WriteTo_panics_without_diagnostic :
    recipientWithoutDiagnostic.FinalRecipient ≠ ""
    ∧ recipientWithoutDiagnostic.Action ≠ ""
    ∧ recipientWithoutDiagnostic.Status.c0 ≠ 0
    ∧ recipientWithoutDiagnostic.DiagnosticCode = none
    ∧ recipientWithoutDiagnostic.WriteTo listWriter [] = .panic []
    ∧ writeMachineReadablePart civilTime listWriter [] (sampleMTA sampleTime laterTime)
        [recipientWithoutDiagnostic] =
      .panic ["--boundary", "Content-Type: message/delivery-status",
              "Content-Description: Delivery report", "",
              "Reporting-Mta: dns; mx.example.com",
              "Arrival-Date: Mon, 2 Jan 2006 15:04:05 -0700",
              "Last-Attempt-Date: Mon, 2 Jan 2006 15:04:05 -0700", ""] := by
  set_option maxRecDepth 100000 in decide

/-! ## Checks run as a group (`check_group.go`) -/

theorem Run.record_firstError (run : Run) (r : Option GoError) (h : run.firstError) :
    (run.record r).firstError := by
  unfold Run.firstError at h ⊢
  unfold Run.record
  rcases run with ⟨err, cancelled, returned⟩
  simp only at h
  cases err with
  | none =>
    have hnil : returned.filterMap id = [] := by
      cases hl : returned.filterMap id with
      | nil => rfl
      | cons a l => rw [hl] at h; simp at h
    cases r with
    | none => simp [List.filterMap_append, hnil]
    | some e => simp [List.filterMap_append, hnil]
  | some x =>
    cases hl : returned.filterMap id with
    | nil => rw [hl] at h; simp at h
    | cons a l =>
      rw [hl] at h
      simp at h
      subst h
      cases r <;> simp [List.filterMap_append, hl]

theorem Run.record_returned (run : Run) (r : Option GoError) :
    (run.record r).returned = run.returned ++ [r] := by
  unfold Run.record
  split <;> rfl

theorem Run.record_err_some (run : Run) (r : Option GoError) (e : GoError)
    (h : run.err = some e) : (run.record r).err = some e := by
  unfold Run.record
  rw [h]

theorem errgroupSteps_firstError (tasks : List (Context → Option GoError)) (s : Schedule)
    (order : List Nat) (run : Run) (h : run.firstError) :
    (errgroupSteps tasks s order run).firstError := by
  induction order generalizing run with
  | nil => exact h
  | cons i rest ih =>
    unfold errgroupSteps
    apply ih
    cases tasks[i]? with
    | none => exact h
    | some task => exact Run.record_firstError _ _ h

theorem errgroupSteps_returned_from (tasks : List (Context → Option GoError)) (s : Schedule)
    (order : List Nat) (run : Run)
    (h : ∀ r ∈ run.returned, ∃ task ∈ tasks, ∃ c, task c = r) :
    ∀ r ∈ (errgroupSteps tasks s order run).returned,
      ∃ task ∈ tasks, ∃ c, task c = r := by
  induction order generalizing run with
  | nil => exact h
  | cons i rest ih =>
    unfold errgroupSteps
    apply ih
    cases hg : tasks[i]? with
    | none => exact h
    | some task =>
      intro r hr
      simp only [Run.record_returned, List.mem_append, List.mem_singleton] at hr
      rcases hr with hr | hr
      · exact h r hr
      · exact ⟨task, List.getElem?_mem hg, _, hr.symm⟩

theorem errgroupSteps_returned_length (tasks : List (Context → Option GoError)) (s : Schedule)
    (order : List Nat) (run : Run) (hlt : ∀ i ∈ order, i < tasks.length) :
    (errgroupSteps tasks s order run).returned.length = run.returned.length + order.length := by
  induction order generalizing run with
  | nil => rfl
  | cons i rest ih =>
    unfold errgroupSteps
    rw [ih _ (fun j hj => hlt j (List.mem_cons_of_mem _ hj))]
    have hi : i < tasks.length := hlt i (List.mem_cons_self _ _)
    obtain ⟨task, ht⟩ : ∃ task, tasks[i]? = some task :=
      ⟨tasks[i], List.getElem?_eq_getElem hi⟩
    rw [ht]
    simp only [Run.record_returned, List.length_append, List.length_singleton,
      List.length_cons, List.length_nil]
    omega

theorem errgroupSteps_err_some (tasks : List (Context → Option GoError)) (s : Schedule)
    (order : List Nat) (run : Run) (e : GoError) (h : run.err = some e) :
    (errgroupSteps tasks s order run).err = some e := by
  induction order generalizing run with
  | nil => exact h
  | cons i rest ih =>
    unfold errgroupSteps
    apply ih
    cases tasks[i]? with
    | none => exact h
    | some task => exact Run.record_err_some _ _ _ h

theorem errgroupSteps_single_failure (tasks : List (Context → Option GoError)) (s : Schedule)
    (j : Nat) (e : GoError)
    (hj : ∃ task : Context → Option GoError,
      tasks[j]? = some task ∧ task ⟨false⟩ = some e)
    (hothers : ∀ (i : Nat) (task : Context → Option GoError),
      i ≠ j → tasks[i]? = some task → task ⟨false⟩ = none)
    (order : List Nat) (run : Run) (herr : run.err = none) (hc : run.cancelled = false) :
    (j ∈ order → (errgroupSteps tasks s order run).err = some e)
    ∧ (j ∉ order → (errgroupSteps tasks s order run).err = none
        ∧ (errgroupSteps tasks s order run).cancelled = false) := by
  induction order generalizing run with
  | nil =>
    exact ⟨fun h => absurd h (List.not_mem_nil _), fun _ => ⟨herr, hc⟩⟩
  | cons i rest ih =>
    unfold errgroupSteps
    by_cases hij : i = j
    · subst hij
      obtain ⟨task, ht, hte⟩ := hj
      constructor
      · intro _
        apply errgroupSteps_err_some
        rw [ht]
        simp only [hc, Bool.false_and, hte]
        unfold Run.record
        rw [herr]
      · intro h
        exact absurd (List.mem_cons_self _ _) h
    · have hstep : (match tasks[i]? with
          | none => run
          | some task => run.record (task ⟨run.cancelled && s.notices i⟩)).err = none
          ∧ (match tasks[i]? with
          | none => run
          | some task =>
            run.record (task ⟨run.cancelled && s.notices i⟩)).cancelled = false := by
        cases ht : tasks[i]? with
        | none => exact ⟨herr, hc⟩
        | some task =>
          simp only [hc, Bool.false_and, hothers i task hij ht]
          unfold Run.record
          rw [herr]
          exact ⟨rfl, hc⟩
      have ih' := ih _ hstep.1 hstep.2
      constructor
      · intro h
        rcases List.mem_cons.mp h with h | h
        · exact absurd h.symm hij
        · exact ih'.1 h
      · intro h
        exact ih'.2 (fun h' => h (List.mem_cons_of_mem _ h'))

theorem checkGroupState_call_eq (cgs : checkGroupState) (st : StageCall) (ctx : Context)
    (s : Schedule) :
    cgs.call st ctx s =
      (errgroupRun ctx (cgs.states.map fun state => fun childCtx => state.call st childCtx)
        s).err := by
  cases st <;> rfl

/-- C9: for every group of child states, every stage call and every order in
which the children return (`s.order` a permutation of their positions): each
child returns once and what it returns is a value of its own call; the
group returns no error when every child returned none; when exactly one
child returned an error the group returns that very error; an error the
group returns is one a child returned, namely the first. Also, in a context
not cancelled from outside, when one child fails on its own and every other
child passes as long as it is not cancelled, the group returns the failing
child's error, whatever the others return once cancelled. -/
theorem checkGroupState_call_result (cgs : checkGroupState) (st : StageCall) (ctx : Context)
    (s : Schedule) (hperm : s.order.Perm (List.range cgs.states.length)) :
    (cgs.returned st ctx s).length = cgs.states.length
    ∧ (∀ r ∈ cgs.returned st ctx s, ∃ child ∈ cgs.states, ∃ c, child.call st c = r)
    ∧ ((∀ r ∈ cgs.returned st ctx s, r = none) → cgs.call st ctx s = none)
    ∧ ((∀ child ∈ cgs.states, ∀ c, child.call st c = none) → cgs.call st ctx s = none)
    ∧ (∀ e, (cgs.returned st ctx s).filterMap id = [e] → cgs.call st ctx s = some e)
    ∧ (∀ e, cgs.call st ctx s = some e → some e ∈ cgs.returned st ctx s)
    ∧ cgs.call st ctx s = ((cgs.returned st ctx s).filterMap id).head?
    ∧ (∀ (j : Nat) (e : GoError), ctx.cancelled = false →
        (∃ child : CheckState,
          cgs.states[j]? = some child ∧ child.call st ⟨false⟩ = some e) →
        (∀ (i : Nat) (child : CheckState),
          i ≠ j → cgs.states[i]? = some child → child.call st ⟨false⟩ = none) →
        cgs.call st ctx s = some e) := by
  have hfirst : cgs.call st ctx s = ((cgs.returned st ctx s).filterMap id).head? := by
    rw [checkGroupState_call_eq]
    exact errgroupSteps_firstError _ s s.order _ rfl
  have hfrom : ∀ r ∈ cgs.returned st ctx s,
      ∃ child ∈ cgs.states, ∃ c, child.call st c = r := by
    intro r hr
    obtain ⟨task, htask, c, hc⟩ := errgroupSteps_returned_from _ s s.order _
      (fun r hr => absurd hr (List.not_mem_nil _)) r hr
    obtain ⟨child, hchild, rfl⟩ := List.mem_map.mp htask
    exact ⟨child, hchild, c, hc⟩
  have hnone : (∀ r ∈ cgs.returned st ctx s, r = none) → cgs.call st ctx s = none := by
    intro h
    rw [hfirst]
    have : (cgs.returned st ctx s).filterMap id = [] := by
      rw [List.filterMap_eq_nil_iff]
      intro r hr
      rw [h r hr]; rfl
    rw [this]; rfl
  refine ⟨?_, hfrom, hnone, ?_, ?_, ?_, hfirst, ?_⟩
  · unfold checkGroupState.returned errgroupRun
    rw [errgroupSteps_returned_length]
    · simp [hperm.length_eq]
    · intro i hi
      have := (hperm.mem_iff).mp hi
      simpa using this
  · intro h
    apply hnone
    intro r hr
    obtain ⟨child, hchild, c, hc⟩ := hfrom r hr
    rw [← hc]; exact h child hchild c
  · intro e he
    rw [hfirst, he]; rfl
  · intro e he
    rw [hfirst] at he
    have hmem : e ∈ (cgs.returned st ctx s).filterMap id := List.mem_of_mem_head? he
    obtain ⟨r, hr, hre⟩ := List.mem_filterMap.mp hmem
    simp only [id] at hre
    rw [← hre]; exact hr
  · intro j e hc hj hothers
    rw [checkGroupState_call_eq]
    have hjlt : j < cgs.states.length := by
      obtain ⟨child, hchild, _⟩ := hj
      exact (List.getElem?_eq_some.mp hchild).1
    have hjmem : j ∈ s.order := (hperm.mem_iff).mpr (List.mem_range.mpr hjlt)
    refine (errgroupSteps_single_failure _ s j e ?_ ?_ s.order _ rfl hc).1 hjmem
    · obtain ⟨child, hchild, hce⟩ := hj
      exact ⟨fun childCtx => child.call st childCtx, by simp [hchild], hce⟩
    · intro i task hij ht
      simp only [List.getElem?_map] at ht
      cases hs : cgs.states[i]? with
      | none => rw [hs] at ht; simp at ht
      | some child =>
        rw [hs] at ht
        simp only [Option.map_some', Option.some.injEq] at ht
        rw [← ht]
        exact hothers i child hij hs

theorem checkGroupState_call_result_witness :
    (sampleGroup.returned (.rcpt "bob@example.org") ⟨false⟩ sampleSchedule).length =
      sampleGroup.states.length
    ∧ (∀ r ∈ sampleGroup.returned (.rcpt "bob@example.org") ⟨false⟩ sampleSchedule,
        ∃ child ∈ sampleGroup.states, ∃ c, child.call (.rcpt "bob@example.org") c = r)
    ∧ ((∀ r ∈ sampleGroup.returned (.rcpt "bob@example.org") ⟨false⟩ sampleSchedule, r = none) →
        sampleGroup.call (.rcpt "bob@example.org") ⟨false⟩ sampleSchedule = none)
    ∧ ((∀ child ∈ sampleGroup.states, ∀ c, child.call (.rcpt "bob@example.org") c = none) →
        sampleGroup.call (.rcpt "bob@example.org") ⟨false⟩ sampleSchedule = none)
    ∧ (∀ e, (sampleGroup.returned (.rcpt "bob@example.org") ⟨false⟩ sampleSchedule).filterMap id
          = [e] →
        sampleGroup.call (.rcpt "bob@example.org") ⟨false⟩ sampleSchedule = some e)
    ∧ (∀ e, sampleGroup.call (.rcpt "bob@example.org") ⟨false⟩ sampleSchedule = some e →
        some e ∈ sampleGroup.returned (.rcpt "bob@example.org") ⟨false⟩ sampleSchedule)
    ∧ sampleGroup.call (.rcpt "bob@example.org") ⟨false⟩ sampleSchedule =
        ((sampleGroup.returned (.rcpt "bob@example.org") ⟨false⟩ sampleSchedule).filterMap
          id).head?
    ∧ (∀ (j : Nat) (e : GoError), (⟨false⟩ : Context).cancelled = false →
        (∃ child : CheckState, sampleGroup.states[j]? = some child ∧
          child.call (.rcpt "bob@example.org") ⟨false⟩ = some e) →
        (∀ (i : Nat) (child : CheckState), i ≠ j → sampleGroup.states[i]? = some child →
          child.call (.rcpt "bob@example.org") ⟨false⟩ = none) →
        sampleGroup.call (.rcpt "bob@example.org") ⟨false⟩ sampleSchedule = some e) :=
  checkGroupState_call_result sampleGroup (.rcpt "bob@example.org") ⟨false⟩ sampleSchedule
    (by decide)

end Maddy
